import Mathlib

/-!
Shallow embedding of the WoD v20 home-rules Foundry module
(`wod_v20_rb_homerules`): the Evil Botches outcome computation, the
ten-success configuration lookup, the dice-type classification pipeline
for Fate dice, the roll-context store, the draft dice-types cache and the
hook error containment, together with theorems checking the module's
natural-language specification against these definitions.

JavaScript numbers are modelled as `Int` where the code guards with
`Number.isFinite` (a non-finite value is modelled by `Option.none` where
the code can actually receive one); JS objects become structures; absent
or `null`/`undefined` fields become `Option`.
-/

namespace WodV20

/-! ## Evil Botches outcome (`compute-outcome.js`) -/

/-- Outcome kinds produced by `computeOutcome`: `"success"`, `"botch"`,
`"failure"`. -/
inductive OutcomeKind where
  | success
  | botch
  | failure
deriving DecidableEq, Repr

/-- The object returned by `computeOutcome`. -/
structure Outcome where
  kind : OutcomeKind
  value : Int
  netBeforeWillpower : Int
  netAfterWillpower : Int
  willpowerRuleApplied : String
deriving DecidableEq, Repr

/-- Embedding of `computeOutcome(successesBeforeOnes, ones, isWillpowerUsed)`.
The JS `Number.isFinite` guards are modelled by taking the inputs as `Int`
(the callers only pass finite values or the guard substitutes `0`, which is
again an `Int`). -/
def computeOutcome (successesBeforeOnes ones : Int) (isWillpowerUsed : Bool) :
    Outcome :=
  let s := successesBeforeOnes
  let o := ones
  let netBeforeWillpower := s - o
  let step : Int × String :=
    if isWillpowerUsed then
      if 1 ≤ netBeforeWillpower then (netBeforeWillpower + 1, "plus-1")
      else (1, "set-to-1")
    else (netBeforeWillpower, "none")
  let netAfterWillpower := step.1
  let willpowerRuleApplied := step.2
  if 0 < netAfterWillpower then
    { kind := .success, value := netAfterWillpower,
      netBeforeWillpower, netAfterWillpower, willpowerRuleApplied }
  else if s < o then
    { kind := .botch, value := o - s,
      netBeforeWillpower, netAfterWillpower, willpowerRuleApplied }
  else
    { kind := .failure, value := 0,
      netBeforeWillpower, netAfterWillpower, willpowerRuleApplied }

/-! ## Ten-success configuration (`get-ten-success-value.js`) -/

/-- The slice of `CONFIG.worldofdarkness` read by `getTenSuccessValue`.
`specialityAddSuccess` and `tenAddSuccess` are `Option Int`: `none` models a
value whose `Number(...)` coercion is not finite. -/
structure WodConfig where
  usespecialityAddSuccess : Bool
  specialityAddSuccess : Option Int
  usetenAddSuccess : Bool
  tenAddSuccess : Option Int
deriving DecidableEq, Repr

/-- Embedding of `getTenSuccessValue(isSpecialized)`; the global config is an
explicit argument, `none` modelling an absent `CONFIG.worldofdarkness`. -/
def getTenSuccessValue (cfg : Option WodConfig) (isSpecialized : Bool) : Int :=
  match cfg with
  | none => 1
  | some c =>
    if c.usespecialityAddSuccess && isSpecialized then
      match c.specialityAddSuccess with
      | some v => if 0 < v then v else 2
      | none => 2
    else if c.usetenAddSuccess then
      match c.tenAddSuccess with
      | some v => if 0 < v then v else 1
      | none => 1
    else 1

/-! ## Evil Botches dice math (`compute-evil-botches-result.js`) -/

/-- The numeric part of the object returned by `computeEvilBotchesResult`
(the localized `outcomeText` is display-only and not modelled). -/
structure EvilBotchesResult where
  ones : Int
  diceSuccesses : Int
  successesBeforeOnes : Int
  tenValue : Int
  outcome : Outcome
deriving DecidableEq, Repr

/-- One iteration of the `for (const value of dieValues)` loop, threading the
`(ones, diceSuccesses)` accumulators. -/
def tallyDie (tenValue difficulty : Int) (acc : Int × Int) (value : Int) :
    Int × Int :=
  if value = 1 then (acc.1 + 1, acc.2)
  else if value = 10 then (acc.1, acc.2 + tenValue)
  else if difficulty ≤ value then (acc.1, acc.2 + 1)
  else acc

/-- Embedding of `computeEvilBotchesResult({...})`. `autoSuccesses` is
`Option Int`: `none` models a non-finite value, which the code replaces by
`0`. -/
def computeEvilBotchesResult (cfg : Option WodConfig) (dieValues : List Int)
    (difficulty : Int) (isSpecialized : Bool) (autoSuccesses : Option Int)
    (isWillpowerUsed : Bool) : EvilBotchesResult :=
  let tenValue := getTenSuccessValue cfg isSpecialized
  let tally := dieValues.foldl (tallyDie tenValue difficulty) (0, 0)
  let ones := tally.1
  let diceSuccesses := tally.2
  let successesBeforeOnes := diceSuccesses + autoSuccesses.getD 0
  { ones, diceSuccesses, successesBeforeOnes, tenValue,
    outcome := computeOutcome successesBeforeOnes ones isWillpowerUsed }

/-! ## Fate dice-type classification (`inject-fate-use-checkbox.js`,
`computeDiceTypesForRollMessage`) -/

/-- The die-type tags pushed by `computeDiceTypesForRollMessage`: the string
values `"special"`, `"base"`, `"fate"` and `"unknown"`. -/
inductive DieType where
  | special
  | base
  | fate
  | unknown
deriving DecidableEq, Repr

/-- One entry of the `targetlist`; only `numDices` is read. -/
structure RollTarget where
  numDices : Int
deriving DecidableEq, Repr

/-- The slice of the `DiceRollContainer` read by
`computeDiceTypesForRollMessage`. `fateDiceCount` models
`__rusbarFateDiceCount`. -/
structure DiceRollContainer where
  targetlist : List RollTarget
  numDices : Int
  woundpenalty : Int
  numSpecialDices : Int
  fateDiceCount : Int
  speciality : Bool
deriving DecidableEq, Repr

/-- The explosion-relevant slice of `CONFIG.worldofdarkness`. -/
structure ExplodeConfig where
  useexplodingDice : Bool
  explodingDice : String
deriving DecidableEq, Repr

/-- A `1d10` roll entry; `value` is the parsed first result, `none` when the
parse fails, so `extractSingleD10Value` yields `0`. -/
structure Roll1d10 where
  value : Option Int
deriving DecidableEq, Repr

/-- Embedding of `extractSingleD10Value(roll)`. -/
def extractSingleD10Value (r : Roll1d10) : Int :=
  r.value.getD 0

/-- The per-target slot queue built by the three `for` loops:
`[special...][base...][fate...]`, with the counts clamped exactly as in the
source. -/
def targetQueue (woundPenalty specialCountRaw fateCountRaw : Int)
    (target : RollTarget) : List DieType :=
  let numberDices := max (target.numDices + woundPenalty) 0
  let fateCount := min (max fateCountRaw 0) numberDices
  let baseCount := numberDices - fateCount
  let specialCount := min (max specialCountRaw 0) baseCount
  List.replicate specialCount.toNat .special ++
    List.replicate (baseCount - specialCount).toNat .base ++
      List.replicate fateCount.toNat .fate

/-- The `while (queue.length > 0 && rollIdx < rolls.length)` loop: consumes
rolls against the slot queue, unshifting one extra slot of the same type when
a `10` is consumed and exploding is allowed; returns the tags pushed and the
rolls left unconsumed. -/
def consumeQueue (canExplode : Bool) (queue : List DieType)
    (rolls : List Roll1d10) : List DieType × List Roll1d10 :=
  match queue, rolls with
  | [], rest => ([], rest)
  | _ :: _, [] => ([], [])
  | dieType :: q, r :: rest =>
    let q' := if canExplode && (extractSingleD10Value r == 10)
      then dieType :: q else q
    let res := consumeQueue canExplode q' rest
    (dieType :: res.1, res.2)

/-- The `for (const target of targetlist)` loop, threading the shared
`rollIdx` cursor as the list of rolls not yet consumed. -/
def consumeTargets (canExplode : Bool)
    (woundPenalty specialCountRaw fateCountRaw : Int) :
    List RollTarget → List Roll1d10 → List DieType × List Roll1d10
  | [], rolls => ([], rolls)
  | t :: ts, rolls =>
    let r1 := consumeQueue canExplode
      (targetQueue woundPenalty specialCountRaw fateCountRaw t) rolls
    let r2 := consumeTargets canExplode woundPenalty specialCountRaw
      fateCountRaw ts r1.2
    (r1.1 ++ r2.1, r2.2)

/-- The `targetlist` actually iterated: the container's list when non-empty,
else a single synthetic target from `container.numDices`. -/
def effectiveTargetlist (container : DiceRollContainer) : List RollTarget :=
  if container.targetlist.isEmpty then [{ numDices := container.numDices }]
  else container.targetlist

/-- The `canExplodeOnThisRoll` flag: exploding enabled and either the
`"always"` mode or the `"speciality"` mode on a speciality roll. -/
def canExplodeOnThisRoll (cfg : ExplodeConfig)
    (container : DiceRollContainer) : Bool :=
  cfg.useexplodingDice &&
    (cfg.explodingDice == "always" ||
      (cfg.explodingDice == "speciality" && container.speciality))

/-- Embedding of `computeDiceTypesForRollMessage(container, rolls)`. -/
def computeDiceTypesForRollMessage (cfg : ExplodeConfig)
    (container : DiceRollContainer) (rolls : List Roll1d10) : List DieType :=
  let res := consumeTargets (canExplodeOnThisRoll cfg container)
    container.woundpenalty container.numSpecialDices container.fateDiceCount
    (effectiveTargetlist container) rolls
  res.1 ++ List.replicate res.2.length .unknown

/-! ## Roll context store (`roll-context/store.js`) -/

/-- A pending roll context as stored in `pendingByUserId`. Optional fields
model `null`/`undefined`; `createdAtMs` is always written by
`setPendingRollContext`. -/
structure RollCtx where
  createdAtMs : Int
  rollTraceId : Option String
  actorId : Option String
  origin : Option String
  attributeKey : Option String
  difficulty : Option Int
  isSpecialized : Option Bool
  useWillpower : Option Bool
  autoSuccesses : Int
deriving DecidableEq, Repr

/-- The `pendingByUserId` map of the global store. -/
abbrev PendingStore := String → Option RollCtx

/-- JS truthiness of an optional string: `undefined`/`null` and the empty
string are falsy. -/
def truthyStr : Option String → Bool
  | some s => !(s == "")
  | none => false

/-- The parameter object of `setPendingAutoSuccesses`. `autoSuccesses` is
the `Number.parseInt` result, `none` modelling a `NaN` parse (an absent
field parses `0` and is modelled as `some 0`). -/
structure AutoSuccessParams where
  actorId : Option String
  attributeKey : Option String
  autoSuccesses : Option Int
deriving DecidableEq, Repr

/-- The `Number.isFinite(v) && v > 0 ? v : 0` guard applied to the parsed
auto-successes. -/
def parsePositiveAutoSuccesses : Option Int → Int
  | some v => if 0 < v then v else 0
  | none => 0

/-- Embedding of `setPendingRollContext(userId, ctx)`; `now` models
`Date.now()`. -/
def setPendingRollContext (store : PendingStore) (userId : String)
    (now : Int) (ctx : RollCtx) : PendingStore :=
  fun u => if u = userId then some { ctx with createdAtMs := now }
    else store u

/-- Embedding of `setPendingAutoSuccesses(userId, params)`: skip when no
pending context, or when both actor ids are truthy and differ, or when both
attributes are truthy and differ; otherwise overwrite only `autoSuccesses`
of the pending context. -/
def setPendingAutoSuccesses (store : PendingStore) (userId : String)
    (params : AutoSuccessParams) : PendingStore :=
  match store userId with
  | none => store
  | some ctx =>
    if truthyStr params.actorId && truthyStr ctx.actorId &&
        !(params.actorId == ctx.actorId) then store
    else if truthyStr params.attributeKey && truthyStr ctx.attributeKey &&
        !(params.attributeKey == ctx.attributeKey) then store
    else fun u =>
      if u = userId then
        some { ctx with
          autoSuccesses := parsePositiveAutoSuccesses params.autoSuccesses }
      else store u

/-- Embedding of `consumePendingRollContext(userId, maxAgeMs)`; `now` models
`Date.now()`. Returns the consumed context (if any) together with the
updated store. -/
def consumePendingRollContext (store : PendingStore) (userId : String)
    (now : Int) (maxAgeMs : Int) : Option RollCtx × PendingStore :=
  match store userId with
  | none => (none, store)
  | some ctx =>
    let age := now - ctx.createdAtMs
    if maxAgeMs < age then
      (none, fun u => if u = userId then none else store u)
    else
      (some ctx, fun u => if u = userId then none else store u)

/-! ## Fate metadata extraction (`extractFateMeta`, chat-result bundle of
`get-fate-permanent.js`) -/

/-- The two metadata channels of a rendered chat message:
`rolls[0].options.rbFateDiceTypes` / `rbFateCacheId` and
`flags[MODULE_ID].diceTypes` / `cacheId`. `none` models a value that is not
an array (absent field, stripped channel). -/
structure FateMessageMeta where
  roll0DiceTypes : Option (List String)
  roll0CacheId : Option String
  flagsDiceTypes : Option (List String)
  flagsCacheId : Option String
deriving DecidableEq, Repr

/-- The record returned by `extractFateMeta`. -/
structure ExtractedFateMeta where
  diceTypes : Option (List String)
  diceTypesSource : String
  cacheId : Option String
deriving DecidableEq, Repr

/-- Embedding of `extractFateMeta(message)`: channel (a) is used whenever it
is an array (`Array.isArray`), channel (b) whenever (a) is not an array and
(b) is, and otherwise a "none" record is returned. -/
def extractFateMeta (m : FateMessageMeta) : ExtractedFateMeta :=
  match m.roll0DiceTypes with
  | some dts =>
    { diceTypes := some dts,
      diceTypesSource := "rolls[0].options.rbFateDiceTypes",
      cacheId := m.roll0CacheId }
  | none =>
    match m.flagsDiceTypes with
    | some dts =>
      { diceTypes := some dts, diceTypesSource := "flags.diceTypes",
        cacheId := m.flagsCacheId }
    | none =>
      { diceTypes := none, diceTypesSource := "none", cacheId := none }

/-! ## Draft dice-types cache (`fate-dice-types-cache.js`,
`cache-dice-types-for-message-draft.js`) -/

/-- `TTL_MS = 60_000`. -/
def TTL_MS : Int := 60000

/-- `MAX_QUEUE_PER_KEY = 5`. -/
def MAX_QUEUE_PER_KEY : Nat := 5

/-- One queued draft entry. -/
structure DraftEntry where
  createdAt : Int
  diceTypes : List String
deriving DecidableEq, Repr

/-- The TTL filter `prune()` applies to the queue of one key. -/
def pruneQueue (now : Int) (q : List DraftEntry) : List DraftEntry :=
  q.filter (fun e => now - e.createdAt ≤ TTL_MS)

/-- Embedding of `cacheDiceTypesForMessageDraft(data, diceTypes)` acting on
the queue stored under the draft key built from `data`: prune, push the new
entry, then `splice(0, length - MAX_QUEUE_PER_KEY)` when over the cap. -/
def cacheDiceTypesForMessageDraft (now : Int) (queue : List DraftEntry)
    (diceTypes : List String) : List DraftEntry :=
  let q1 := pruneQueue now queue
  let entry : DraftEntry := { createdAt := now, diceTypes := diceTypes }
  let q2 := q1 ++ [entry]
  if MAX_QUEUE_PER_KEY < q2.length then
    q2.drop (q2.length - MAX_QUEUE_PER_KEY)
  else q2

/-! ## Hook error containment (`registerFateDiceTypeTaggingHook` and the
render recomputation hook) -/

/-- The effectful steps performed inside the `preCreateChatMessage` tagging
handler's `try` block; every step may throw. -/
structure TaggingHookSteps (Msg Container : Type) where
  shouldEnableFate : Except String Bool
  getRolls : Msg → Except String (List Roll1d10)
  consumeLastFateRollContainer : Except String (Option Container)
  computeTypes : Container → List Roll1d10 → Except String (List DieType)
  updateSource : Msg → List DieType → Except String Unit

/-- The body of the `preCreateChatMessage` tagging handler (the contents of
its `try` block): gate on the setting, read the rolls, consume the one-shot
container, compute and persist the dice types. -/
def taggingHookBody {Msg Container : Type}
    (steps : TaggingHookSteps Msg Container) (msg : Msg) :
    Except String Unit := do
  let enabled ← steps.shouldEnableFate
  if enabled then
    let rolls ← steps.getRolls msg
    if !rolls.isEmpty then
      match (← steps.consumeLastFateRollContainer) with
      | some container =>
        let types ← steps.computeTypes container rolls
        if !types.isEmpty then
          steps.updateSource msg types
      | none => pure ()

/-- The `try { body } catch (err) { error(...) }` wrapper every registered
hook callback uses: a thrown error is logged and the callback returns
normally. -/
def hookCallbackCatching (body : Except String Unit) : Except String Unit :=
  match body with
  | .ok _ => .ok ()
  | .error _err => .ok ()

/-- The callback `registerFateDiceTypeTaggingHook` registers on
`preCreateChatMessage`. -/
def taggingHookCallback {Msg Container : Type}
    (steps : TaggingHookSteps Msg Container) (msg : Msg) :
    Except String Unit :=
  hookCallbackCatching (taggingHookBody steps msg)

/-- The callback the outcome-recomputation hook registers on
`renderChatMessage` (its whole body sits in one `try` block, abstracted
here as `body`). -/
def evilBotchesRenderCallback (body : Except String Unit) :
    Except String Unit :=
  hookCallbackCatching body

end WodV20

namespace WodV20

/-- C1: willpower floor / plus-one rule and base success/botch/failure split
of `computeOutcome`. -/
theorem computeOutcome_spec (s o : Int) (h : 0 ≤ o) (w : Bool) :
    (w = true →
      (1 ≤ s - o →
        (computeOutcome s o w).kind = .success ∧
        (computeOutcome s o w).value = (s - o) + 1) ∧
      (s - o < 1 →
        (computeOutcome s o w).kind = .success ∧
        (computeOutcome s o w).value = 1)) ∧
    (w = false →
      (0 < s - o →
        (computeOutcome s o w).kind = .success ∧
        (computeOutcome s o w).value = s - o) ∧
      (s < o →
        (computeOutcome s o w).kind = .botch ∧
        (computeOutcome s o w).value = o - s) ∧
      (s - o ≤ 0 → o ≤ s →
        (computeOutcome s o w).kind = .failure ∧
        (computeOutcome s o w).value = 0)) := by
  unfold computeOutcome
  constructor
  · rintro rfl
    constructor
    · intro hnet
      simp only [if_pos rfl, if_pos hnet]
      have : (0 : Int) < s - o + 1 := by omega
      simp [this]
    · intro hnet
      simp only [if_pos rfl, if_neg (by omega : ¬ (1 : Int) ≤ s - o)]
      norm_num
  · rintro rfl
    refine ⟨?_, ?_, ?_⟩
    · intro hnet
      simp [hnet]
    · intro hlt
      have h1 : ¬ (0 : Int) < s - o := by omega
      simp [h1, hlt]
    · intro hle hge
      have h1 : ¬ (0 : Int) < s - o := by omega
      have h2 : ¬ s < o := by omega
      simp [h1, h2]

/-- Witness for C1 at concrete inputs. -/
theorem computeOutcome_spec_witness :
    ((computeOutcome 3 1 true).kind = .success ∧
      (computeOutcome 3 1 true).value = 3) ∧
    ((computeOutcome 0 2 false).kind = .botch ∧
      (computeOutcome 0 2 false).value = 2) := by
  refine ⟨?_, ?_⟩
  · have h := (computeOutcome_spec 3 1 (by norm_num) true).1 rfl
    exact (h.1 (by norm_num))
  · have h := (computeOutcome_spec 0 2 (by norm_num) false).2 rfl
    exact (h.2.1 (by norm_num))

/-- Unfolding of the die-tally fold into counts: ones are the number of `1`s,
dice successes are ten-value times the number of `10`s plus the number of
other values reaching the difficulty. -/
theorem tallyDie_foldl (tv d : Int) (l : List Int) (a b : Int) :
    l.foldl (tallyDie tv d) (a, b) =
      (a + (l.countP (fun v => v == 1) : Int),
       b + tv * (l.countP (fun v => v == 10) : Int)
         + (l.countP (fun v => decide (v ≠ 1 ∧ v ≠ 10 ∧ d ≤ v)) : Int)) := by
  induction l generalizing a b with
  | nil => simp
  | cons x xs ih =>
    simp only [List.foldl_cons, List.countP_cons]
    rw [ih]
    by_cases h1 : x = 1
    · subst h1
      simp only [tallyDie, if_pos rfl]
      norm_num
      ring
    · by_cases h10 : x = 10
      · subst h10
        simp only [tallyDie, if_neg (by norm_num : (10 : Int) ≠ 1), if_pos rfl]
        norm_num
        ring
      · by_cases hd : d ≤ x
        · simp only [tallyDie, if_neg h1, if_neg h10, if_pos hd]
          simp [h1, h10, hd]
          ring
        · simp only [tallyDie, if_neg h1, if_neg h10, if_neg hd]
          simp [h1, h10, hd]

/-- C2: per-die tallying of `computeEvilBotchesResult` — a `1` increments
`ones` only, a `10` adds the configured ten-value to `diceSuccesses`, any
other value at or above the difficulty adds `1`, values below the difficulty
have no effect, and `successesBeforeOnes = diceSuccesses + autoSuccesses`. -/
theorem computeEvilBotchesResult_spec (cfg : Option WodConfig)
    (dieValues : List Int) (difficulty : Int) (isSpecialized : Bool)
    (b : Int) (hb : 0 ≤ b) (w : Bool)
    (hd : ∀ v ∈ dieValues, 1 ≤ v ∧ v ≤ 10) :
    (computeEvilBotchesResult cfg dieValues difficulty isSpecialized
        (some b) w).ones =
      (dieValues.countP (fun v => v == 1) : Int) ∧
    (computeEvilBotchesResult cfg dieValues difficulty isSpecialized
        (some b) w).diceSuccesses =
      getTenSuccessValue cfg isSpecialized
          * (dieValues.countP (fun v => v == 10) : Int)
        + (dieValues.countP
            (fun v => decide (v ≠ 1 ∧ v ≠ 10 ∧ difficulty ≤ v)) : Int) ∧
    (computeEvilBotchesResult cfg dieValues difficulty isSpecialized
        (some b) w).successesBeforeOnes =
      (computeEvilBotchesResult cfg dieValues difficulty isSpecialized
        (some b) w).diceSuccesses + b := by
  simp only [computeEvilBotchesResult, tallyDie_foldl, Option.getD]
  refine ⟨?_, ?_, ?_⟩ <;> push_cast <;> ring

/-- Witness for C2 at a concrete roll: dice `[1, 1, 5, 10, 6]`,
difficulty `6`, no speciality config, two bonus successes. -/
theorem computeEvilBotchesResult_spec_witness :
    (computeEvilBotchesResult none [1, 1, 5, 10, 6] 6 false (some 2)
        false).ones = 2 ∧
    (computeEvilBotchesResult none [1, 1, 5, 10, 6] 6 false (some 2)
        false).diceSuccesses = 2 ∧
    (computeEvilBotchesResult none [1, 1, 5, 10, 6] 6 false (some 2)
        false).successesBeforeOnes = 4 := by
  have h := computeEvilBotchesResult_spec none [1, 1, 5, 10, 6] 6 false 2
    (by norm_num) false (by decide)
  refine ⟨?_, ?_, ?_⟩
  · rw [h.1]; decide
  · rw [h.2.1]; decide
  · rw [h.2.2, h.2.1]; decide

/-- C3 counterexample: with the specialization rule active, a specialized
roll and `specialityAddSuccess` configured to `3`, the ten-value is `3`,
not exactly `2` as the claim states. -/
theorem getTenSuccessValue_speciality_counterexample :
    getTenSuccessValue
      (some { usespecialityAddSuccess := true, specialityAddSuccess := some 3,
              usetenAddSuccess := false, tenAddSuccess := none }) true = 3 ∧
    (3 : Int) ≠ 2 := by
  exact ⟨rfl, by norm_num⟩

/-- C3 (amended): when the specialization rule is active and the roll is
specialized, the ten-value is the configured speciality-add value if it is a
finite positive number and `2` otherwise; else, when the ten rule is enabled,
it is the configured ten-bonus value if finite and positive and `1`
otherwise; else it is `1` (also when the config object is absent) —
evaluated in that priority order. -/
theorem getTenSuccessValue_priority (c : WodConfig) (isSpec : Bool) :
    (c.usespecialityAddSuccess = true → isSpec = true →
      (∀ v, c.specialityAddSuccess = some v → 0 < v →
        getTenSuccessValue (some c) isSpec = v) ∧
      (∀ v, c.specialityAddSuccess = some v → v ≤ 0 →
        getTenSuccessValue (some c) isSpec = 2) ∧
      (c.specialityAddSuccess = none →
        getTenSuccessValue (some c) isSpec = 2)) ∧
    (¬(c.usespecialityAddSuccess = true ∧ isSpec = true) →
      c.usetenAddSuccess = true →
      (∀ v, c.tenAddSuccess = some v → 0 < v →
        getTenSuccessValue (some c) isSpec = v) ∧
      (∀ v, c.tenAddSuccess = some v → v ≤ 0 →
        getTenSuccessValue (some c) isSpec = 1) ∧
      (c.tenAddSuccess = none →
        getTenSuccessValue (some c) isSpec = 1)) ∧
    (¬(c.usespecialityAddSuccess = true ∧ isSpec = true) →
      c.usetenAddSuccess = false →
      getTenSuccessValue (some c) isSpec = 1) ∧
    getTenSuccessValue none isSpec = 1 := by
  refine ⟨?_, ?_, ?_, rfl⟩
  · intro hs hi
    refine ⟨?_, ?_, ?_⟩
    · intro v hv hpos
      simp [getTenSuccessValue, hs, hi, hv, hpos]
    · intro v hv hneg
      have hnp : ¬ (0 : Int) < v := by omega
      simp [getTenSuccessValue, hs, hi, hv, hnp]
    · intro hv
      simp [getTenSuccessValue, hs, hi, hv]
  · intro hns ht
    have hb : (c.usespecialityAddSuccess && isSpec) = false := by
      cases hcs : c.usespecialityAddSuccess <;> cases hcsp : isSpec <;>
        simp_all
    refine ⟨?_, ?_, ?_⟩
    · intro v hv hpos
      simp [getTenSuccessValue, hb, ht, hv, hpos]
    · intro v hv hneg
      have hnp : ¬ (0 : Int) < v := by omega
      simp [getTenSuccessValue, hb, ht, hv, hnp]
    · intro hv
      simp [getTenSuccessValue, hb, ht, hv]
  · intro hns ht
    have hb : (c.usespecialityAddSuccess && isSpec) = false := by
      cases hcs : c.usespecialityAddSuccess <;> cases hcsp : isSpec <;>
        simp_all
    simp [getTenSuccessValue, hb, ht]

/-- Witness for the amended C3: configured speciality value `3` is returned
on a specialized roll; ten-bonus value `2` is returned when only the ten
rule is on. -/
theorem getTenSuccessValue_priority_witness :
    getTenSuccessValue
      (some { usespecialityAddSuccess := true, specialityAddSuccess := some 3,
              usetenAddSuccess := false, tenAddSuccess := none }) true = 3 ∧
    getTenSuccessValue
      (some { usespecialityAddSuccess := false, specialityAddSuccess := none,
              usetenAddSuccess := true, tenAddSuccess := some 2 }) true = 2 := by
  constructor
  · exact ((getTenSuccessValue_priority
      { usespecialityAddSuccess := true, specialityAddSuccess := some 3,
        usetenAddSuccess := false, tenAddSuccess := none } true).1
      rfl rfl).1 3 rfl (by norm_num)
  · exact ((getTenSuccessValue_priority
      { usespecialityAddSuccess := false, specialityAddSuccess := none,
        usetenAddSuccess := true, tenAddSuccess := some 2 } true).2.1
      (by simp) rfl).1 2 rfl (by norm_num)

/-- The queue-consumption loop tags exactly as many rolls as it consumes:
tags emitted plus rolls left over equal the rolls given. -/
theorem consumeQueue_length (c : Bool) (rolls : List Roll1d10) :
    ∀ q, (consumeQueue c q rolls).1.length +
      (consumeQueue c q rolls).2.length = rolls.length := by
  induction rolls with
  | nil =>
    intro q
    cases q <;> simp [consumeQueue]
  | cons r rest ih =>
    intro q
    cases q with
    | nil => simp [consumeQueue]
    | cons dt q =>
      simp only [consumeQueue, List.length_cons]
      have := ih (if c && (extractSingleD10Value r == 10)
        then dt :: q else q)
      omega

/-- The target loop likewise tags exactly as many rolls as it consumes. -/
theorem consumeTargets_length (c : Bool) (wp sp fr : Int)
    (ts : List RollTarget) :
    ∀ rolls, (consumeTargets c wp sp fr ts rolls).1.length +
      (consumeTargets c wp sp fr ts rolls).2.length = rolls.length := by
  induction ts with
  | nil =>
    intro rolls
    simp [consumeTargets]
  | cons t ts ih =>
    intro rolls
    simp only [consumeTargets, List.length_append]
    have h1 := consumeQueue_length c rolls (targetQueue wp sp fr t)
    have h2 := ih (consumeQueue c (targetQueue wp sp fr t) rolls).2
    omega

/-- C4: when exploding applies and a consumed roll shows a `10`, the roll is
tagged with the front slot's type and one extra slot of that same type is
unshifted, so the queue seen by the remaining rolls again starts with that
type; concretely, three base dice with raw results `[10, 7, 3, 9]` under
always-exploding rules classify as four base dice. -/
theorem computeDiceTypes_exploding_inherits :
    (∀ (dieType : DieType) (q : List DieType) (r : Roll1d10)
        (rest : List Roll1d10),
      extractSingleD10Value r = 10 →
      consumeQueue true (dieType :: q) (r :: rest) =
        (dieType :: (consumeQueue true (dieType :: q) rest).1,
          (consumeQueue true (dieType :: q) rest).2)) ∧
    computeDiceTypesForRollMessage
      { useexplodingDice := true, explodingDice := "always" }
      { targetlist := [{ numDices := 3 }], numDices := 0, woundpenalty := 0,
        numSpecialDices := 0, fateDiceCount := 0, speciality := false }
      [{ value := some 10 }, { value := some 7 }, { value := some 3 },
        { value := some 9 }] =
      [.base, .base, .base, .base] := by
  constructor
  · intro dieType q r rest h
    simp [consumeQueue, h]
  · decide

/-- Witness for C4: the inheritance step applied at a concrete queue and a
concrete exploding roll. -/
theorem computeDiceTypes_exploding_inherits_witness :
    consumeQueue true [DieType.fate] [{ value := some 10 }] =
      (DieType.fate :: (consumeQueue true [DieType.fate] []).1,
        (consumeQueue true [DieType.fate] []).2) :=
  computeDiceTypes_exploding_inherits.1 DieType.fate []
    { value := some 10 } [] rfl

/-- C5: the classification assigns exactly one tag per roll (output length
equals the rolls length); each target's slot queue is special slots, then
base slots, then fate slots, with the target total clamped to `≥ 0`, the
fate count clamped to not exceed the total and the special count clamped to
not exceed the remaining base budget; and the tags appended after all queues
are exhausted are all `unknown`. -/
theorem computeDiceTypesForRollMessage_spec (cfg : ExplodeConfig)
    (container : DiceRollContainer) (rolls : List Roll1d10) :
    (computeDiceTypesForRollMessage cfg container rolls).length =
      rolls.length ∧
    (∀ (wp sp fr : Int) (t : RollTarget),
      ∃ nSpecial nBase nFate : Nat,
        targetQueue wp sp fr t =
          List.replicate nSpecial .special ++ List.replicate nBase .base ++
            List.replicate nFate .fate ∧
        (nSpecial : Int) + nBase + nFate = max (t.numDices + wp) 0 ∧
        (nFate : Int) = min (max fr 0) (max (t.numDices + wp) 0) ∧
        (nSpecial : Int) =
          min (max sp 0)
            (max (t.numDices + wp) 0 -
              min (max fr 0) (max (t.numDices + wp) 0))) ∧
    (computeDiceTypesForRollMessage cfg container rolls).drop
        (consumeTargets (canExplodeOnThisRoll cfg container)
          container.woundpenalty container.numSpecialDices
          container.fateDiceCount (effectiveTargetlist container)
          rolls).1.length =
      List.replicate
        (rolls.length -
          (consumeTargets (canExplodeOnThisRoll cfg container)
            container.woundpenalty container.numSpecialDices
            container.fateDiceCount (effectiveTargetlist container)
            rolls).1.length)
        DieType.unknown := by
  refine ⟨?_, ?_, ?_⟩
  · simp only [computeDiceTypesForRollMessage, List.length_append,
      List.length_replicate]
    have := consumeTargets_length (canExplodeOnThisRoll cfg container)
      container.woundpenalty container.numSpecialDices
      container.fateDiceCount (effectiveTargetlist container) rolls
    omega
  · intro wp sp fr t
    refine ⟨(min (max sp 0)
        (max (t.numDices + wp) 0 -
          min (max fr 0) (max (t.numDices + wp) 0))).toNat,
      ((max (t.numDices + wp) 0 - min (max fr 0) (max (t.numDices + wp) 0)) -
        min (max sp 0)
          (max (t.numDices + wp) 0 -
            min (max fr 0) (max (t.numDices + wp) 0))).toNat,
      (min (max fr 0) (max (t.numDices + wp) 0)).toNat,
      rfl, ?_, ?_, ?_⟩ <;> omega
  · simp only [computeDiceTypesForRollMessage]
    rw [List.drop_left]
    have := consumeTargets_length (canExplodeOnThisRoll cfg container)
      container.woundpenalty container.numSpecialDices
      container.fateDiceCount (effectiveTargetlist container) rolls
    congr 1
    omega

/-- C6: `consumePendingRollContext` returns and deletes a stored context
whose age is at most `maxAgeMs`, returns none when nothing is stored,
deletes and returns none for a stale context, and a second call right after
a successful consume returns none. -/
theorem consumePendingRollContext_spec (store : PendingStore)
    (userId : String) (now maxAgeMs : Int) :
    (store userId = none →
      consumePendingRollContext store userId now maxAgeMs = (none, store)) ∧
    (∀ ctx, store userId = some ctx → now - ctx.createdAtMs ≤ maxAgeMs →
      (consumePendingRollContext store userId now maxAgeMs).1 = some ctx ∧
      (consumePendingRollContext store userId now maxAgeMs).2 userId =
        none) ∧
    (∀ ctx, store userId = some ctx → maxAgeMs < now - ctx.createdAtMs →
      (consumePendingRollContext store userId now maxAgeMs).1 = none ∧
      (consumePendingRollContext store userId now maxAgeMs).2 userId =
        none) ∧
    (∀ ctx st2,
      consumePendingRollContext store userId now maxAgeMs = (some ctx, st2) →
      ∀ now2 maxAgeMs2,
        (consumePendingRollContext st2 userId now2 maxAgeMs2).1 = none) := by
  refine ⟨?_, ?_, ?_, ?_⟩
  · intro h0
    unfold consumePendingRollContext
    rw [h0]
  · intro ctx hctx hfresh
    unfold consumePendingRollContext
    rw [hctx]
    have hna : ¬ maxAgeMs < now - ctx.createdAtMs := by omega
    simp [hna]
  · intro ctx hctx hstale
    unfold consumePendingRollContext
    rw [hctx]
    simp [hstale]
  · intro ctx st2 hok now2 maxAgeMs2
    have hdel : st2 userId = none := by
      unfold consumePendingRollContext at hok
      cases hst : store userId with
      | none =>
        rw [hst] at hok
        simp at hok
      | some c =>
        rw [hst] at hok
        by_cases hage : maxAgeMs < now - c.createdAtMs
        · simp [hage] at hok
        · simp only [hage, if_neg, if_false, Prod.mk.injEq] at hok
          rw [← hok.2]
          simp
    unfold consumePendingRollContext
    rw [hdel]

/-- Witness for C6: a context created at `1000` ms is consumed at `2000` ms
with a `4000` ms TTL. -/
theorem consumePendingRollContext_spec_witness :
    (consumePendingRollContext
      (fun u => if u = "u1" then
        some { createdAtMs := 1000, rollTraceId := none, actorId := none,
               origin := none, attributeKey := none, difficulty := none,
               isSpecialized := none, useWillpower := none,
               autoSuccesses := 0 }
        else none)
      "u1" 2000 4000).1 =
      some { createdAtMs := 1000, rollTraceId := none, actorId := none,
             origin := none, attributeKey := none, difficulty := none,
             isSpecialized := none, useWillpower := none,
             autoSuccesses := 0 } :=
  ((consumePendingRollContext_spec
    (fun u => if u = "u1" then
      some { createdAtMs := 1000, rollTraceId := none, actorId := none,
             origin := none, attributeKey := none, difficulty := none,
             isSpecialized := none, useWillpower := none,
             autoSuccesses := 0 }
      else none)
    "u1" 2000 4000).2.1
    { createdAtMs := 1000, rollTraceId := none, actorId := none,
      origin := none, attributeKey := none, difficulty := none,
      isSpecialized := none, useWillpower := none, autoSuccesses := 0 }
    (by decide) (by norm_num)).1

/-- C7 counterexample: when channel (a) holds an empty array and channel (b)
holds a non-empty classification, `extractFateMeta` returns the empty
channel-(a) array instead of falling back to channel (b) as the claim
states. -/
theorem extractFateMeta_empty_counterexample :
    (extractFateMeta
      { roll0DiceTypes := some [], roll0CacheId := none,
        flagsDiceTypes := some ["base"], flagsCacheId := none }).diceTypes =
      some [] ∧
    (extractFateMeta
      { roll0DiceTypes := some [], roll0CacheId := none,
        flagsDiceTypes := some ["base"], flagsCacheId := none
        }).diceTypesSource = "rolls[0].options.rbFateDiceTypes" ∧
    (some [] : Option (List String)) ≠ some ["base"] := by
  refine ⟨rfl, rfl, by decide⟩

/-- C7 (amended): extraction uses channel (a) whenever it is present (an
array, even empty); it falls back to channel (b) exactly when channel (a) is
absent; and when both are absent it returns the "no classification" record
without error. In particular a message whose channel (a) was stripped still
recovers the classification from channel (b). -/
theorem extractFateMeta_spec (m : FateMessageMeta) :
    (∀ dts, m.roll0DiceTypes = some dts →
      (extractFateMeta m).diceTypes = some dts ∧
      (extractFateMeta m).diceTypesSource =
        "rolls[0].options.rbFateDiceTypes") ∧
    (m.roll0DiceTypes = none → ∀ dts, m.flagsDiceTypes = some dts →
      (extractFateMeta m).diceTypes = some dts ∧
      (extractFateMeta m).diceTypesSource = "flags.diceTypes") ∧
    (m.roll0DiceTypes = none → m.flagsDiceTypes = none →
      extractFateMeta m =
        { diceTypes := none, diceTypesSource := "none",
          cacheId := none }) := by
  refine ⟨?_, ?_, ?_⟩
  · intro dts h
    unfold extractFateMeta
    rw [h]
    exact ⟨rfl, rfl⟩
  · intro ha dts hb
    unfold extractFateMeta
    rw [ha, hb]
    exact ⟨rfl, rfl⟩
  · intro ha hb
    unfold extractFateMeta
    rw [ha, hb]

/-- Witness for C7: channel (a) stripped, classification recovered from the
flags channel. -/
theorem extractFateMeta_spec_witness :
    (extractFateMeta
      { roll0DiceTypes := none, roll0CacheId := none,
        flagsDiceTypes := some ["base", "fate"],
        flagsCacheId := some "cid" }).diceTypes = some ["base", "fate"] ∧
    (extractFateMeta
      { roll0DiceTypes := none, roll0CacheId := none,
        flagsDiceTypes := some ["base", "fate"],
        flagsCacheId := some "cid" }).diceTypesSource = "flags.diceTypes" :=
  (extractFateMeta_spec
    { roll0DiceTypes := none, roll0CacheId := none,
      flagsDiceTypes := some ["base", "fate"],
      flagsCacheId := some "cid" }).2.1 rfl ["base", "fate"] rfl

/-- C8: the per-key draft queue is capped at `MAX_QUEUE_PER_KEY = 5`
entries, always keeping a suffix — the most recently pushed entries — of the
pruned queue plus the new entry, with the new entry always retained last;
enqueuing 7 drafts under one key keeps exactly the 5 most recent. -/
theorem cacheDiceTypesForMessageDraft_spec :
    (∀ (now : Int) (q : List DraftEntry) (dts : List String),
      (cacheDiceTypesForMessageDraft now q dts).length ≤
        MAX_QUEUE_PER_KEY) ∧
    (∀ (now : Int) (q : List DraftEntry) (dts : List String),
      List.IsSuffix (cacheDiceTypesForMessageDraft now q dts)
        (pruneQueue now q ++ [{ createdAt := now, diceTypes := dts }])) ∧
    (∀ (now : Int) (q : List DraftEntry) (dts : List String),
      (cacheDiceTypesForMessageDraft now q dts).getLast? =
        some { createdAt := now, diceTypes := dts }) ∧
    List.foldl (fun q dts => cacheDiceTypesForMessageDraft 0 q dts) []
        [["d1"], ["d2"], ["d3"], ["d4"], ["d5"], ["d6"], ["d7"]] =
      [{ createdAt := 0, diceTypes := ["d3"] },
       { createdAt := 0, diceTypes := ["d4"] },
       { createdAt := 0, diceTypes := ["d5"] },
       { createdAt := 0, diceTypes := ["d6"] },
       { createdAt := 0, diceTypes := ["d7"] }] := by
  refine ⟨?_, ?_, ?_, by decide⟩
  · intro now q dts
    unfold cacheDiceTypesForMessageDraft
    dsimp only
    split
    · simp only [List.length_drop]
      omega
    · omega
  · intro now q dts
    unfold cacheDiceTypesForMessageDraft
    dsimp only
    split
    · exact List.drop_suffix _ _
    · exact List.suffix_refl _
  · intro now q dts
    unfold cacheDiceTypesForMessageDraft
    dsimp only
    split
    · have hle : (pruneQueue now q ++
          [({ createdAt := now, diceTypes := dts } : DraftEntry)]).length -
          MAX_QUEUE_PER_KEY ≤ (pruneQueue now q).length := by
        simp only [List.length_append, List.length_cons, List.length_nil,
          MAX_QUEUE_PER_KEY]
        omega
      rw [List.drop_append_of_le_length hle]
      exact List.getLast?_concat _
    · exact List.getLast?_concat _

/-- C9: both registered hook callbacks wrap their whole body in a
`try`/`catch` that logs; whatever the body does — including throwing at any
internal step — the callback returns normally and never propagates an
exception to the host. -/
theorem hookCallbacks_never_throw :
    (∀ (Msg Container : Type) (steps : TaggingHookSteps Msg Container)
        (msg : Msg), taggingHookCallback steps msg = Except.ok ()) ∧
    (∀ body : Except String Unit,
      evilBotchesRenderCallback body = Except.ok ()) := by
  constructor
  · intro Msg Container steps msg
    unfold taggingHookCallback hookCallbackCatching
    cases taggingHookBody steps msg <;> rfl
  · intro body
    unfold evilBotchesRenderCallback hookCallbackCatching
    cases body <;> rfl

/-- C10 counterexample: the pending context stores the empty string as actor
id, the call supplies actor id `"A"` — the two differ, yet
`setPendingAutoSuccesses` still updates `autoSuccesses` (the guard only
fires when both ids are truthy), contradicting the claim that the store is
left unchanged whenever the supplied and stored actor ids differ. -/
theorem setPendingAutoSuccesses_guard_counterexample :
    (setPendingAutoSuccesses
        (fun u => if u = "u1" then
          some { createdAtMs := 0, rollTraceId := none, actorId := some "",
                 origin := none, attributeKey := none, difficulty := none,
                 isSpecialized := none, useWillpower := none,
                 autoSuccesses := 0 }
          else none)
        "u1"
        { actorId := some "A", attributeKey := none,
          autoSuccesses := some 3 })
        "u1" =
      some { createdAtMs := 0, rollTraceId := none, actorId := some "",
             origin := none, attributeKey := none, difficulty := none,
             isSpecialized := none, useWillpower := none,
             autoSuccesses := 3 } ∧
    (some "A" : Option String) ≠ some "" ∧ (3 : Int) ≠ 0 := by
  refine ⟨by decide, by decide, by decide⟩

/-- C10 (amended): `setPendingAutoSuccesses` leaves the store unchanged when
no pending context exists, or when both the supplied and the stored actor
ids are truthy (non-empty) and differ, or when both the supplied and the
stored attributes are truthy and differ; otherwise it rewrites only the
`autoSuccesses` field of that user's pending context — to the parsed value
when finite and strictly positive and to `0` otherwise — leaving every other
field and every other user's entry untouched. -/
theorem setPendingAutoSuccesses_spec (store : PendingStore)
    (userId : String) (params : AutoSuccessParams) :
    (store userId = none →
      setPendingAutoSuccesses store userId params = store) ∧
    (∀ ctx, store userId = some ctx →
      (truthyStr params.actorId = true → truthyStr ctx.actorId = true →
        params.actorId ≠ ctx.actorId →
        setPendingAutoSuccesses store userId params = store) ∧
      ((truthyStr params.actorId = false ∨ truthyStr ctx.actorId = false ∨
          params.actorId = ctx.actorId) →
        truthyStr params.attributeKey = true →
        truthyStr ctx.attributeKey = true →
        params.attributeKey ≠ ctx.attributeKey →
        setPendingAutoSuccesses store userId params = store) ∧
      ((truthyStr params.actorId = false ∨ truthyStr ctx.actorId = false ∨
          params.actorId = ctx.actorId) →
        (truthyStr params.attributeKey = false ∨
          truthyStr ctx.attributeKey = false ∨
          params.attributeKey = ctx.attributeKey) →
        (setPendingAutoSuccesses store userId params) userId =
          some { ctx with autoSuccesses :=
            parsePositiveAutoSuccesses params.autoSuccesses } ∧
        (∀ u, u ≠ userId →
          (setPendingAutoSuccesses store userId params) u = store u))) ∧
    (∀ v : Int, 0 < v → parsePositiveAutoSuccesses (some v) = v) ∧
    (∀ v : Int, v ≤ 0 → parsePositiveAutoSuccesses (some v) = 0) ∧
    parsePositiveAutoSuccesses none = 0 := by
  refine ⟨?_, ?_, ?_, ?_, rfl⟩
  · intro h0
    unfold setPendingAutoSuccesses
    rw [h0]
  · intro ctx hctx
    refine ⟨?_, ?_, ?_⟩
    · intro hpa hca hne
      unfold setPendingAutoSuccesses
      rw [hctx]
      have hbe : (params.actorId == ctx.actorId) = false :=
        beq_eq_false_iff_ne.mpr hne
      simp [hpa, hca, hbe]
    · intro hor hpt hct hne
      unfold setPendingAutoSuccesses
      rw [hctx]
      have hfalse : (truthyStr params.actorId && truthyStr ctx.actorId &&
          !(params.actorId == ctx.actorId)) = false := by
        rcases hor with h | h | h
        · simp [h]
        · simp [h]
        · simp [h]
      have hbe : (params.attributeKey == ctx.attributeKey) = false :=
        beq_eq_false_iff_ne.mpr hne
      simp [hfalse, hpt, hct, hbe]
    · intro hor1 hor2
      unfold setPendingAutoSuccesses
      rw [hctx]
      have hfalse1 : (truthyStr params.actorId && truthyStr ctx.actorId &&
          !(params.actorId == ctx.actorId)) = false := by
        rcases hor1 with h | h | h
        · simp [h]
        · simp [h]
        · simp [h]
      have hfalse2 : (truthyStr params.attributeKey &&
          truthyStr ctx.attributeKey &&
          !(params.attributeKey == ctx.attributeKey)) = false := by
        rcases hor2 with h | h | h
        · simp [h]
        · simp [h]
        · simp [h]
      simp only [hfalse1, hfalse2, Bool.false_eq_true, if_false]
      constructor
      · simp
      · intro u hu
        simp [hu]
  · intro v hv
    simp [parsePositiveAutoSuccesses, hv]
  · intro v hv
    have hnp : ¬ (0 : Int) < v := by omega
    simp [parsePositiveAutoSuccesses, hnp]

/-- Witness for the amended C10: matching actor ids, absent attribute — the
pending context's `autoSuccesses` becomes the supplied positive value `5`. -/
theorem setPendingAutoSuccesses_spec_witness :
    (setPendingAutoSuccesses
        (fun u => if u = "u1" then
          some { createdAtMs := 0, rollTraceId := none, actorId := some "A",
                 origin := none, attributeKey := none, difficulty := none,
                 isSpecialized := none, useWillpower := none,
                 autoSuccesses := 0 }
          else none)
        "u1"
        { actorId := some "A", attributeKey := none,
          autoSuccesses := some 5 })
        "u1" =
      some { createdAtMs := 0, rollTraceId := none, actorId := some "A",
             origin := none, attributeKey := none, difficulty := none,
             isSpecialized := none, useWillpower := none,
             autoSuccesses := parsePositiveAutoSuccesses (some 5) } :=
  (((setPendingAutoSuccesses_spec
      (fun u => if u = "u1" then
        some { createdAtMs := 0, rollTraceId := none, actorId := some "A",
               origin := none, attributeKey := none, difficulty := none,
               isSpecialized := none, useWillpower := none,
               autoSuccesses := 0 }
        else none)
      "u1"
      { actorId := some "A", attributeKey := none,
        autoSuccesses := some 5 }).2.1
    { createdAtMs := 0, rollTraceId := none, actorId := some "A",
      origin := none, attributeKey := none, difficulty := none,
      isSpecialized := none, useWillpower := none, autoSuccesses := 0 }
    (by decide)).2.2
    (Or.inr (Or.inr rfl)) (Or.inl rfl)).1

end WodV20
